import Mathlib

/-
Verification of the market-data acquisition layer of the ADLTS repository.

Sources embedded here:
- src/config.py : TradingConfig, ModelConfig, RLConfig, ConfigManager.
- src/data_collector.py : MarketData, DataCollector construction and the
  exchange-registry setup loop.  The body of DataCollector.fetch_ohlcv is
  absent from the source tree (the file is truncated right after the method
  signature), so the fetch protocol is modelled from the specification
  (section 4.3 of the design document) where noted below.

External effects (network connections, Firebase, environment variables) are
embedded as explicit environment records supplying the outcome of each
effectful call; the functions below are otherwise direct translations of the
Python control flow.
-/

namespace ADLTS

/-! ### Configuration data model (src/config.py) -/

/-- Mirror of the TradingConfig dataclass with its literal default values.
Float defaults are represented as exact rationals. -/
structure TradingConfig where
  exchange : String := "binance"
  symbol : String := "BTC/USDT"
  timeframe : String := "1h"
  initial_balance : ℚ := 10000
  max_position_size : ℚ := 1/10
  stop_loss_pct : ℚ := 2/100
  take_profit_pct : ℚ := 5/100
deriving DecidableEq, Repr

/-- Mirror of the ModelConfig dataclass with its literal default values. -/
structure ModelConfig where
  lstm_units : Nat := 50
  dense_units : Nat := 25
  dropout_rate : ℚ := 2/10
  sequence_length : Nat := 60
  batch_size : Nat := 32
  learning_rate : ℚ := 1/1000
deriving DecidableEq, Repr

/-- Mirror of the RLConfig dataclass with its literal default values. -/
structure RLConfig where
  gamma : ℚ := 99/100
  epsilon_start : ℚ := 1
  epsilon_min : ℚ := 1/100
  epsilon_decay : ℚ := 995/1000
  memory_size : Nat := 10000
  target_update_freq : Nat := 100
deriving DecidableEq, Repr

/-- A configuration document stored in Firestore, abstracted as key/value
pairs (the Python code treats it as an arbitrary dict). -/
abbrev ConfigDoc := List (String × String)

/-- Outcome of one Firestore document read, as seen by get_live_config:
the call can raise, find no document, or return the document dict. -/
inductive ReadOutcome where
  | exc (msg : String)
  | missing
  | found (d : ConfigDoc)
deriving DecidableEq, Repr

/-- Outcome of one Firestore document write, as seen by update_config. -/
inductive WriteOutcome where
  | exc (msg : String)
  | done
deriving DecidableEq, Repr

/-- Abstract Firestore client: the behaviour of reads and writes against
the adlts_config collection. -/
structure FirestoreDB where
  read : String → ReadOutcome
  write : String → ConfigDoc → WriteOutcome

/-- Environment seen by ConfigManager._initialize_firebase: whether the
FIREBASE_CREDENTIALS_PATH variable is set to an existing file, and whether
the credential/app/client construction succeeds (raises no exception). -/
structure FirebaseEnv where
  credPathSet : Bool
  initOk : Bool

/-- Mirror of the ConfigManager object state after __init__. -/
structure ConfigManager where
  db : Option FirestoreDB
  trading : TradingConfig
  model : ModelConfig
  rl : RLConfig

/-- Mirror of ConfigManager._initialize_firebase: the _db field is set only
when the credentials path is present and the whole construction succeeds;
every exception is caught inside the method, leaving _db as None. -/
def initFirebaseDb (env : FirebaseEnv) (client : FirestoreDB) : Option FirestoreDB :=
  if env.credPathSet && env.initOk then some client else none

/-- Mirror of ConfigManager.__init__: local defaults are installed
unconditionally, then the Firebase connection is attempted; construction
is total (never propagates an exception). -/
def mkConfigManager (env : FirebaseEnv) (client : FirestoreDB) : ConfigManager :=
  { db := initFirebaseDb env client
    trading := {}
    model := {}
    rl := {} }

/-- Mirror of ConfigManager.get_live_config: None when _db is unset, the
document dict when the read finds one, None when the document is missing
or the read raises. -/
def getLiveConfig (m : ConfigManager) (key : String) : Option ConfigDoc :=
  match m.db with
  | none => none
  | some db =>
    match db.read key with
    | .exc _ => none
    | .missing => none
    | .found d => some d

/-- Mirror of ConfigManager.update_config: False when _db is unset or the
write raises, True when the write completes. -/
def updateConfig (m : ConfigManager) (key : String) (data : ConfigDoc) : Bool :=
  match m.db with
  | none => false
  | some db =>
    match db.write key data with
    | .exc _ => false
    | .done => true

/-! ### Exchange registry (src/data_collector.py, _initialize_exchanges) -/

/-- Constructor arguments passed to every ccxt exchange class. -/
structure ExchangeArgs where
  enableRateLimit : Bool
  timeout : Nat
deriving DecidableEq, Repr

/-- The literal argument dict used in _initialize_exchanges. -/
def ccxtArgs : ExchangeArgs := { enableRateLimit := true, timeout := 30000 }

/-- Environment seen by the registry setup loop: for each exchange name,
whether the getattr lookup plus the constructor call succeed, and whether
the load_markets readiness probe succeeds. -/
structure InitEnv where
  constructOk : String → Bool
  probeOk : String → Bool

/-- Record of processing one candidate inside the try block: the arguments
the constructor was called with, how many load_markets probes ran, and
whether the exchange was added to the active dict. -/
structure InitAttempt where
  constructedWith : ExchangeArgs
  probes : Nat
  ready : Bool
deriving DecidableEq, Repr

/-- Mirror of one iteration of the loop body in _initialize_exchanges:
construct with the fixed argument dict; when construction succeeds, run
load_markets exactly once; the candidate becomes ready only when the probe
also succeeds.  Any exception is caught and the loop continues. -/
def tryInitExchange (env : InitEnv) (name : String) : InitAttempt :=
  if env.constructOk name then
    { constructedWith := ccxtArgs, probes := 1, ready := env.probeOk name }
  else
    { constructedWith := ccxtArgs, probes := 0, ready := false }

/-- Python dict key insertion: a fresh key is appended at the end, an
existing key keeps its original position. -/
def dictInsert (keys : List String) (name : String) : List String :=
  if name ∈ keys then keys else keys ++ [name]

/-- Mirror of the for loop of _initialize_exchanges over a candidate list:
returns the key order of the self.exchanges dict together with the list of
candidates that were attempted. -/
def initLoop (env : InitEnv) (acc : List String) : List String → List String × List String
  | [] => (acc, [])
  | n :: rest =>
    let acc2 := if (tryInitExchange env n).ready then dictInsert acc n else acc
    let res := initLoop env acc2 rest
    (res.1, n :: res.2)

/-- Key order of the active-exchange dict produced by the setup loop. -/
def activeExchanges (env : InitEnv) (candidates : List String) : List String :=
  (initLoop env [] candidates).1

/-- The candidates the setup loop actually attempted. -/
def attemptedExchanges (env : InitEnv) (candidates : List String) : List String :=
  (initLoop env [] candidates).2

/-- The error raised when no exchange could be readied (the spec names it
NoProvidersAvailable; the code raises ConnectionError with this message). -/
inductive InitErr where
  | noProvidersAvailable (msg : String)
deriving DecidableEq, Repr

/-- Mirror of _initialize_exchanges applied to an arbitrary candidate list:
run the loop, then fail when the active dict is empty. -/
def initExchangesFrom (env : InitEnv) (candidates : List String) :
    Except InitErr (List String) :=
  let act := activeExchanges env candidates
  if act.isEmpty then
    .error (.noProvidersAvailable "No exchanges could be initialized")
  else
    .ok act

/-- The literal exchanges_to_try list hardcoded in _initialize_exchanges. -/
def exchangesToTry : List String := ["binance", "kraken", "coinbase"]

/-- The candidate list used by _initialize_exchanges for a given config:
the method reads exchanges_to_try and never consults self.config. -/
def candidatesUsed (_config : TradingConfig) : List String := exchangesToTry

/-- Mirror of _initialize_exchanges as called from DataCollector.__init__,
with the config the collector was constructed with. -/
def initExchanges (env : InitEnv) (config : TradingConfig) :
    Except InitErr (List String) :=
  initExchangesFrom env (candidatesUsed config)

/-- Modelled from the spec: the inbound configuration provider exposes a
prioritized list of provider identifiers.  src/config.py exposes only the
single field TradingConfig.exchange, so the candidate list the spec says
the registry should take from a given config is that one identifier. -/
def specCandidateList (config : TradingConfig) : List String := [config.exchange]

/-! ### Market data (src/data_collector.py, MarketData) and the fetch
protocol.  The body of DataCollector.fetch_ohlcv is truncated out of the
source file, so everything from RawBar to fetchOHLCV below is modelled from
the specification, section 4.3. -/

/-- A numeric field of a raw provider bar: either a proper number or a
NaN/undefined placeholder. -/
inductive Val where
  | nan
  | num (q : ℚ)
deriving DecidableEq, Repr

/-- Whether a raw value is a proper number. -/
def Val.isNum : Val → Bool
  | .nan => false
  | .num _ => true

/-- Numeric content of a raw value, read only after validation. -/
def Val.toQ : Val → ℚ
  | .nan => 0
  | .num q => q

/-- One raw OHLCV bar as returned by a provider: timestamp (already in the
canonical instant representation), open, high, low, close, volume. -/
structure RawBar where
  ts : Int
  o : Val
  h : Val
  l : Val
  c : Val
  v : Val
deriving DecidableEq, Repr

/-- Whether a raw bar is free of NaN/undefined values. -/
def RawBar.nanFree (b : RawBar) : Bool :=
  b.o.isNum && b.h.isNum && b.l.isNum && b.c.isNum && b.v.isNum

/-- Boolean test that a timestamp sequence is strictly increasing. -/
def strictIncr : List Int → Bool
  | [] => true
  | [_] => true
  | a :: b :: rest => (decide (a < b)) && strictIncr (b :: rest)

/-- Modelled from the spec: the well-formedness check applied to a provider
response before it may be normalized — non-empty, NaN-free, timestamps
strictly increasing. -/
def barsWellFormed (bars : List RawBar) : Bool :=
  !bars.isEmpty && bars.all RawBar.nanFree && strictIncr (bars.map RawBar.ts)

/-- Mirror of the MarketData dataclass.  The Python field named open is
called open_ here because open is reserved in Lean. -/
structure MarketData where
  timestamp : List Int
  open_ : List ℚ
  high : List ℚ
  low : List ℚ
  close : List ℚ
  volume : List ℚ
  symbol : String
  exchange : String
deriving DecidableEq, Repr

/-- The MarketData invariant stated in the spec: the four price sequences
and the volume sequence match the timestamp sequence in length, that length
is positive, and timestamps are strictly increasing. -/
def mdInvariant (md : MarketData) : Prop :=
  md.open_.length = md.timestamp.length ∧
  md.high.length = md.timestamp.length ∧
  md.low.length = md.timestamp.length ∧
  md.close.length = md.timestamp.length ∧
  md.volume.length = md.timestamp.length ∧
  0 < md.timestamp.length ∧
  strictIncr md.timestamp = true

instance (md : MarketData) : Decidable (mdInvariant md) := by
  unfold mdInvariant
  infer_instance

/-- Modelled from the spec: normalization of a validated raw response into
a MarketData value tagged with the symbol and the provider that served it. -/
def normalizeBars (symbol provider : String) (bars : List RawBar) : MarketData :=
  { timestamp := bars.map RawBar.ts
    open_ := bars.map fun b => b.o.toQ
    high := bars.map fun b => b.h.toQ
    low := bars.map fun b => b.l.toQ
    close := bars.map fun b => b.c.toQ
    volume := bars.map fun b => b.v.toQ
    symbol := symbol
    exchange := provider }

/-- Outcome of one OHLCV request against one provider: a bar list, or a
network/timeout/rate-limit error with its reason. -/
inductive ProviderResult where
  | ok (bars : List RawBar)
  | err (reason : String)
deriving DecidableEq, Repr

/-- Environment of one fetch invocation: the registry's active providers in
priority order, and each provider's response to the single request this
invocation would send it. -/
structure FetchEnv where
  registry : List String
  respond : String → ProviderResult

/-- Cache key, per the spec: symbol, timeframe, limit, and the pinned
provider or the marker any. -/
structure FetchKey where
  symbol : String
  timeframe : String
  limit : Nat
  provider : String
deriving DecidableEq, Repr

/-- The shared bar cache, represented by its lookup order: a later put for
the same key shadows earlier entries (last-writer-wins). -/
abbrev Cache := List (FetchKey × MarketData)

/-- Cache lookup. -/
def cacheGet (c : Cache) (k : FetchKey) : Option MarketData :=
  match c with
  | [] => none
  | e :: rest => if e.1 = k then some e.2 else cacheGet rest k

/-- Cache store: the new entry shadows any previous entry for the key. -/
def cachePut (c : Cache) (k : FetchKey) (md : MarketData) : Cache :=
  (k, md) :: c

/-- Modelled from the spec: the fetch failure raised when every candidate
is exhausted, carrying the attempted providers and their failure reasons. -/
inductive FetchErr where
  | dataUnavailable (attempts : List (String × String))
deriving DecidableEq, Repr

/-- Modelled from the spec: the ordered candidate list of a fetch — a ready
preferred provider is tried alone first with the full registry order as
backup; otherwise the full registry order is used. -/
def candidateOrder (registry : List String) (preferred : Option String) :
    List String :=
  match preferred with
  | some p => if p ∈ registry then p :: registry else registry
  | none => registry

/-- Modelled from the spec: one attempt against one provider — a transport
error keeps its reason, a response failing validation counts as a failure
with reason malformed. -/
def attemptOne (env : FetchEnv) (symbol : String) (p : String) :
    Except String MarketData :=
  match env.respond p with
  | .err r => .error r
  | .ok bars =>
    if barsWellFormed bars then .ok (normalizeBars symbol p bars)
    else .error "malformed response"

/-- Record a failed attempt in the error being accumulated. -/
def addAttempt (p r : String) :
    Except FetchErr MarketData → Except FetchErr MarketData
  | .ok md => .ok md
  | .error (.dataUnavailable atts) =>
    .error (.dataUnavailable ((p, r) :: atts))

/-- Modelled from the spec: the fallback loop of a fetch — one attempt per
candidate in order, stopping at the first validated response; on exhaustion
the error lists every attempt.  Also returns the providers contacted over
the network. -/
def fetchLoop (env : FetchEnv) (symbol : String) :
    List String → Except FetchErr MarketData × List String
  | [] => (.error (.dataUnavailable []), [])
  | p :: rest =>
    match attemptOne env symbol p with
    | .ok md => (.ok md, [p])
    | .error r =>
      let res := fetchLoop env symbol rest
      (addAttempt p r res.1, p :: res.2)

/-- The cache key of a fetch invocation. -/
def fetchKey (symbol timeframe : String) (limit : Nat)
    (preferred : Option String) : FetchKey :=
  { symbol := symbol, timeframe := timeframe, limit := limit
    provider := preferred.getD "any" }

/-- Result of one fetch invocation: the returned data or error, the cache
state after the call, and the providers contacted over the network. -/
structure FetchResult where
  result : Except FetchErr MarketData
  cacheOut : Cache
  contacted : List String

/-- Modelled from the spec, section 4.3: fetchOHLCV — cache check first
(a hit returns immediately with no network traffic), then the fallback
loop over the candidate order; a success is stored in the cache. -/
def fetchOHLCV (env : FetchEnv) (cache : Cache) (symbol timeframe : String)
    (limit : Nat) (preferred : Option String) : FetchResult :=
  match cacheGet cache (fetchKey symbol timeframe limit preferred) with
  | some md => { result := .ok md, cacheOut := cache, contacted := [] }
  | none =>
    match fetchLoop env symbol (candidateOrder env.registry preferred) with
    | (.ok md, contacted) =>
      { result := .ok md
        cacheOut := cachePut cache (fetchKey symbol timeframe limit preferred) md
        contacted := contacted }
    | (.error e, contacted) =>
      { result := .error e, cacheOut := cache, contacted := contacted }

/-! ### Concrete environments and data used to exercise the theorems -/

/-- Environment in which the provider alpha fails construction and every
other provider initializes and probes successfully. -/
def envAlphaFails : InitEnv :=
  { constructOk := fun n => !(n == "alpha"), probeOk := fun _ => true }

/-- Environment in which every provider fails construction. -/
def envAllFail : InitEnv :=
  { constructOk := fun _ => false, probeOk := fun _ => true }

/-- Fetch environment with a single registered provider that times out. -/
def envDown : FetchEnv :=
  { registry := ["beta"], respond := fun _ => .err "timeout" }

/-- Fetch environment with registry [beta, gamma] where every request
fails with a connection error. -/
def envBG : FetchEnv :=
  { registry := ["beta", "gamma"], respond := fun _ => .err "down" }

/-- A well-formed two-bar raw response. -/
def barsW : List RawBar :=
  [{ ts := 0, o := .num 1, h := .num 2, l := .num (1/2), c := .num (3/2),
     v := .num 10 },
   { ts := 3600, o := .num (3/2), h := .num 3, l := .num 1, c := .num 2,
     v := .num 20 }]

/-- Fetch environment with registry [beta, gamma] where every provider
serves the well-formed response barsW. -/
def envBetaOk : FetchEnv :=
  { registry := ["beta", "gamma"], respond := fun _ => .ok barsW }

/-- The MarketData obtained by normalizing barsW from provider beta. -/
def mdW : MarketData := normalizeBars "BTC/USDT" "beta" barsW

/-- Firebase environment with no credentials and a failing setup. -/
def envOff : FirebaseEnv := { credPathSet := false, initOk := false }

/-- A trivial Firestore client used to instantiate theorems. -/
def dbW : FirestoreDB := { read := fun _ => .missing, write := fun _ _ => .done }

/-! ### Helper lemmas for the registry setup loop -/

/-- The setup loop attempts every candidate, in order. -/
theorem initLoop_attempted (env : InitEnv) (cs : List String) :
    ∀ acc, (initLoop env acc cs).2 = cs := by
  induction cs with
  | nil => intro acc; rfl
  | cons n rest ih => intro acc; simp [initLoop, ih]

/-- Membership after a dict insertion. -/
theorem mem_dictInsert (acc : List String) (n x : String)
    (h : x ∈ dictInsert acc n) : x ∈ acc ∨ x = n := by
  unfold dictInsert at h
  by_cases hn : n ∈ acc
  · rw [if_pos hn] at h; exact .inl h
  · rw [if_neg hn] at h
    rcases List.mem_append.mp h with h | h
    · exact .inl h
    · exact .inr (List.mem_singleton.mp h)

/-- Any name in the dict produced by the setup loop was either already
present or passed its readiness probe. -/
theorem mem_initLoop (env : InitEnv) (cs : List String) :
    ∀ acc x, x ∈ (initLoop env acc cs).1 →
      x ∈ acc ∨ (tryInitExchange env x).ready = true := by
  induction cs with
  | nil => intro acc x h; exact .inl h
  | cons n rest ih =>
    intro acc x h
    simp only [initLoop] at h
    by_cases hr : (tryInitExchange env n).ready = true
    · rw [if_pos hr] at h
      rcases ih (dictInsert acc n) x h with h2 | h2
      · rcases mem_dictInsert acc n x h2 with h3 | h3
        · exact .inl h3
        · exact .inr (h3 ▸ hr)
      · exact .inr h2
    · rw [if_neg hr] at h
      exact ih acc x h

/-- The setup loop only appends: the final dict order is the initial one
followed by an order-preserving selection of the candidates. -/
theorem initLoop_active_append (env : InitEnv) (cs : List String) :
    ∀ acc, ∃ extra, (initLoop env acc cs).1 = acc ++ extra ∧
      extra.Sublist cs := by
  induction cs with
  | nil => intro acc; exact ⟨[], by simp [initLoop], List.Sublist.refl []⟩
  | cons n rest ih =>
    intro acc
    simp only [initLoop]
    by_cases hr : (tryInitExchange env n).ready = true
    · by_cases hn : n ∈ acc
      · rcases ih acc with ⟨e, he, hs⟩
        refine ⟨e, ?_, hs.cons n⟩
        rw [if_pos hr]
        unfold dictInsert
        rw [if_pos hn]
        exact he
      · rcases ih (acc ++ [n]) with ⟨e, he, hs⟩
        refine ⟨n :: e, ?_, hs.cons₂ n⟩
        rw [if_pos hr]
        unfold dictInsert
        rw [if_neg hn, he, List.append_assoc]
        rfl
    · rcases ih acc with ⟨e, he, hs⟩
      refine ⟨e, ?_, hs.cons n⟩
      rw [if_neg hr]
      exact he

/-- A ready attempt means both the construction and the probe succeeded. -/
theorem ready_spec (env : InitEnv) (name : String)
    (h : (tryInitExchange env name).ready = true) :
    env.constructOk name = true ∧ env.probeOk name = true := by
  unfold tryInitExchange at h
  by_cases hc : env.constructOk name = true
  · rw [if_pos hc] at h; exact ⟨hc, h⟩
  · rw [if_neg hc] at h; exact absurd h (by simp)

/-! ### Claims about the registry (C2, C3, C8, C9) -/

/-- Claim C2: a candidate whose setup attempt fails is excluded from the
active set, and every candidate is still attempted — one failure never
aborts registry construction. -/
theorem claim_C2 (env : InitEnv) (cs : List String) (c : String)
    (hfail : (tryInitExchange env c).ready = false) :
    c ∉ activeExchanges env cs ∧ attemptedExchanges env cs = cs := by
  constructor
  · intro hmem
    have hmem2 : c ∈ (initLoop env [] cs).1 := hmem
    rcases mem_initLoop env cs [] c hmem2 with h | h
    · exact absurd h (List.not_mem_nil c)
    · rw [hfail] at h; exact Bool.false_ne_true h
  · exact initLoop_attempted env cs []

theorem claim_C2_witness :
    (tryInitExchange envAlphaFails "alpha").ready = false ∧
    ("alpha" ∉ activeExchanges envAlphaFails ["alpha", "beta", "gamma"] ∧
      attemptedExchanges envAlphaFails ["alpha", "beta", "gamma"] =
        ["alpha", "beta", "gamma"]) :=
  ⟨by decide,
    claim_C2 envAlphaFails ["alpha", "beta", "gamma"] "alpha" (by decide)⟩

/-- Claim C3: registry setup fails with the NoProvidersAvailable error
exactly when the active set ends up empty; with at least one ready
provider it succeeds, returning the active set. -/
theorem claim_C3 (env : InitEnv) (cs : List String) :
    (activeExchanges env cs = [] →
      initExchangesFrom env cs =
        .error (.noProvidersAvailable "No exchanges could be initialized")) ∧
    (activeExchanges env cs ≠ [] →
      initExchangesFrom env cs = .ok (activeExchanges env cs)) := by
  constructor
  · intro h
    unfold initExchangesFrom
    rw [h]
    rfl
  · intro h
    unfold initExchangesFrom
    rw [if_neg (by simpa using h)]

theorem claim_C3_witness :
    (activeExchanges envAllFail ["binance", "kraken", "coinbase"] = [] ∧
      initExchangesFrom envAllFail ["binance", "kraken", "coinbase"] =
        .error (.noProvidersAvailable "No exchanges could be initialized")) ∧
    (activeExchanges envAlphaFails ["alpha", "beta", "gamma"] ≠ [] ∧
      initExchangesFrom envAlphaFails ["alpha", "beta", "gamma"] =
        .ok (activeExchanges envAlphaFails ["alpha", "beta", "gamma"])) :=
  ⟨⟨by decide,
      (claim_C3 envAllFail ["binance", "kraken", "coinbase"]).1 (by decide)⟩,
   ⟨by decide,
      (claim_C3 envAlphaFails ["alpha", "beta", "gamma"]).2 (by decide)⟩⟩

/-- Claim C8 counterexample: with the configured exchange set to kraken,
the candidate list actually attempted by _initialize_exchanges is not the
list supplied by the configuration — the loop reads the hardcoded
exchanges_to_try and ignores the config. -/
theorem claim_C8_counterexample :
    candidatesUsed { exchange := "kraken" } ≠
      specCandidateList { exchange := "kraken" } := by
  decide

/-- Claim C8 (amended): registry initialization always uses the fixed
candidate list [binance, kraken, coinbase] hardcoded inside
_initialize_exchanges; the configuration supplied at construction time
has no effect on the candidate list or on the initialization result. -/
theorem claim_C8 (env : InitEnv) (config other : TradingConfig) :
    candidatesUsed config = ["binance", "kraken", "coinbase"] ∧
    initExchanges env config = initExchanges env other :=
  ⟨rfl, rfl⟩

/-- Claim C9: every candidate is constructed with rate-limit compliance
enabled and the fixed 30000 ms timeout; a successfully constructed
candidate runs exactly one load_markets readiness probe; and a candidate
enters the active set only after that single probe succeeded. -/
theorem claim_C9 (env : InitEnv) (name : String) (cs : List String) :
    (tryInitExchange env name).constructedWith = ccxtArgs ∧
    ccxtArgs.enableRateLimit = true ∧
    ccxtArgs.timeout = 30000 ∧
    (env.constructOk name = true → (tryInitExchange env name).probes = 1) ∧
    (name ∈ activeExchanges env cs →
      (tryInitExchange env name).probes = 1 ∧
      env.probeOk name = true ∧
      (tryInitExchange env name).ready = true) := by
  refine ⟨?_, rfl, rfl, ?_, ?_⟩
  · unfold tryInitExchange
    split <;> rfl
  · intro hc
    unfold tryInitExchange
    rw [if_pos hc]
  · intro hmem
    have hmem2 : name ∈ (initLoop env [] cs).1 := hmem
    rcases mem_initLoop env cs [] name hmem2 with h | h
    · exact absurd h (List.not_mem_nil name)
    · rcases ready_spec env name h with ⟨hc, hp⟩
      refine ⟨?_, hp, h⟩
      unfold tryInitExchange
      rw [if_pos hc]

theorem claim_C9_witness :
    envAlphaFails.constructOk "beta" = true ∧
    "beta" ∈ activeExchanges envAlphaFails ["alpha", "beta", "gamma"] ∧
    ((tryInitExchange envAlphaFails "beta").constructedWith = ccxtArgs ∧
      (tryInitExchange envAlphaFails "beta").probes = 1 ∧
      envAlphaFails.probeOk "beta" = true ∧
      (tryInitExchange envAlphaFails "beta").ready = true) :=
  ⟨by decide, by decide,
    (claim_C9 envAlphaFails "beta" ["alpha", "beta", "gamma"]).1,
    ((claim_C9 envAlphaFails "beta" ["alpha", "beta", "gamma"]).2.2.2.2
      (by decide)).1,
    ((claim_C9 envAlphaFails "beta" ["alpha", "beta", "gamma"]).2.2.2.2
      (by decide)).2.1,
    ((claim_C9 envAlphaFails "beta" ["alpha", "beta", "gamma"]).2.2.2.2
      (by decide)).2.2⟩

/-! ### Helper lemmas for the fetch protocol -/

/-- The first provider contacted by the fallback loop is the first
candidate. -/
theorem fetchLoop_contacted_head (env : FetchEnv) (symbol : String)
    (cands : List String) :
    (fetchLoop env symbol cands).2.head? = cands.head? := by
  cases cands with
  | nil => rfl
  | cons p rest =>
    simp only [fetchLoop]
    cases attemptOne env symbol p with
    | ok md => rfl
    | error r => rfl

/-- When every candidate fails its single attempt, the fallback loop
returns the exhaustion error recording one attempt per candidate, and
contacts every candidate. -/
theorem fetchLoop_allFail (env : FetchEnv) (symbol : String)
    (cands : List String)
    (hall : ∀ p ∈ cands, ∃ r, attemptOne env symbol p = .error r) :
    ∃ atts,
      fetchLoop env symbol cands = (.error (.dataUnavailable atts), cands) ∧
      atts.map Prod.fst = cands := by
  induction cands with
  | nil => exact ⟨[], rfl, rfl⟩
  | cons p rest ih =>
    rcases hall p (List.mem_cons_self p rest) with ⟨r, hr⟩
    rcases ih (fun q hq => hall q (List.mem_cons_of_mem p hq)) with
      ⟨atts, hl, hm⟩
    refine ⟨(p, r) :: atts, ?_, ?_⟩
    · simp only [fetchLoop, hr, hl]
      rfl
    · simp [hm]

/-- A successful single attempt comes from a well-formed provider response
and returns its normalization. -/
theorem attemptOne_ok (env : FetchEnv) (symbol p : String) (md : MarketData)
    (h : attemptOne env symbol p = .ok md) :
    ∃ bars, env.respond p = .ok bars ∧ barsWellFormed bars = true ∧
      md = normalizeBars symbol p bars := by
  unfold attemptOne at h
  split at h
  next r heq => exact absurd h (by simp)
  next bars heq =>
    split at h
    next hw => exact ⟨bars, heq, hw, (Except.ok.inj h).symm⟩
    next hw => exact absurd h (by simp)

/-- A successful fallback loop run returns the normalization of some
candidate's well-formed response. -/
theorem fetchLoop_ok (env : FetchEnv) (symbol : String) :
    ∀ (cands : List String) (md : MarketData),
      (fetchLoop env symbol cands).1 = .ok md →
      ∃ p bars, p ∈ cands ∧ env.respond p = .ok bars ∧
        barsWellFormed bars = true ∧ md = normalizeBars symbol p bars := by
  intro cands
  induction cands with
  | nil =>
    intro md h
    exact absurd h (by simp [fetchLoop])
  | cons p rest ih =>
    intro md h
    simp only [fetchLoop] at h
    cases ha : attemptOne env symbol p with
    | ok md2 =>
      rw [ha] at h
      have hmd : md2 = md := Except.ok.inj h
      rcases attemptOne_ok env symbol p md2 ha with ⟨bars, h1, h2, h3⟩
      exact ⟨p, bars, List.mem_cons_self p rest, h1, h2, hmd ▸ h3⟩
    | error r =>
      rw [ha] at h
      cases hres : (fetchLoop env symbol rest).1 with
      | ok md3 =>
        rw [hres] at h
        have hmd : md3 = md := Except.ok.inj h
        rcases ih md3 hres with ⟨q, bars, hq, h1, h2, h3⟩
        exact ⟨q, bars, List.mem_cons_of_mem p hq, h1, h2, hmd ▸ h3⟩
      | error e =>
        rw [hres] at h
        cases e with
        | dataUnavailable atts => exact absurd h (by simp [addAttempt])

/-- Normalizing a well-formed response yields data satisfying the
MarketData invariant. -/
theorem normalize_invariant (symbol p : String) (bars : List RawBar)
    (h : barsWellFormed bars = true) :
    mdInvariant (normalizeBars symbol p bars) := by
  unfold barsWellFormed at h
  simp only [Bool.and_eq_true, Bool.not_eq_true'] at h
  obtain ⟨⟨h1, _h2⟩, h3⟩ := h
  have hpos : 0 < bars.length := by
    cases bars with
    | nil => simp at h1
    | cons b bs => simp
  unfold mdInvariant normalizeBars
  refine ⟨?_, ?_, ?_, ?_, ?_, ?_, ?_⟩ <;> simp [hpos, h3]

/-- A cached value retrieved by lookup is the payload of some entry. -/
theorem cacheGet_entry (c : Cache) (k : FetchKey) (md : MarketData)
    (h : cacheGet c k = some md) : ∃ e ∈ c, e.2 = md := by
  induction c with
  | nil => exact absurd h (by simp [cacheGet])
  | cons e rest ih =>
    unfold cacheGet at h
    by_cases he : e.1 = k
    · rw [if_pos he] at h
      exact ⟨e, List.mem_cons_self e rest, Option.some.inj h⟩
    · rw [if_neg he] at h
      rcases ih h with ⟨e2, hm, hv⟩
      exact ⟨e2, List.mem_cons_of_mem e hm, hv⟩

/-- Looking up a key right after storing it returns the stored payload. -/
theorem cacheGet_put (c : Cache) (k : FetchKey) (md : MarketData) :
    cacheGet (cachePut c k md) k = some md := by
  unfold cachePut cacheGet
  rw [if_pos rfl]

/-- After a successful fetch, the fetch key maps to the returned payload
in the resulting cache. -/
theorem fetch_ok_cached (env : FetchEnv) (cache : Cache)
    (symbol timeframe : String) (limit : Nat) (preferred : Option String)
    (md : MarketData)
    (h1 : (fetchOHLCV env cache symbol timeframe limit preferred).result =
      .ok md) :
    cacheGet (fetchOHLCV env cache symbol timeframe limit preferred).cacheOut
      (fetchKey symbol timeframe limit preferred) = some md := by
  cases hk : cacheGet cache (fetchKey symbol timeframe limit preferred) with
  | some md0 =>
    have hfo : fetchOHLCV env cache symbol timeframe limit preferred =
        { result := .ok md0, cacheOut := cache, contacted := [] } := by
      unfold fetchOHLCV
      rw [hk]
    rw [hfo] at h1 ⊢
    have : md0 = md := Except.ok.inj h1
    rw [hk, this]
  | none =>
    rcases hl : fetchLoop env symbol (candidateOrder env.registry preferred)
      with ⟨r, contacted⟩
    cases r with
    | ok md1 =>
      have hfo : fetchOHLCV env cache symbol timeframe limit preferred =
          { result := .ok md1
            cacheOut :=
              cachePut cache (fetchKey symbol timeframe limit preferred) md1
            contacted := contacted } := by
        unfold fetchOHLCV
        rw [hk, hl]
      rw [hfo] at h1 ⊢
      have : md1 = md := Except.ok.inj h1
      rw [this]
      exact cacheGet_put cache (fetchKey symbol timeframe limit preferred) md
    | error e =>
      have hfo : fetchOHLCV env cache symbol timeframe limit preferred =
          { result := .error e, cacheOut := cache, contacted := contacted } := by
        unfold fetchOHLCV
        rw [hk, hl]
      rw [hfo] at h1
      exact absurd h1 (by simp)

/-! ### Claims about the fetch protocol (C1, C4, C5, C6, C7) -/

/-- Claim C1: when the cache misses and every candidate's single attempt
fails, fetchOHLCV ends in the DataUnavailable error whose attempt log
names every attempted provider, in order, with a reason each — no value is
returned, and every candidate was contacted. -/
theorem claim_C1 (env : FetchEnv) (cache : Cache) (symbol timeframe : String)
    (limit : Nat) (preferred : Option String)
    (hmiss : cacheGet cache (fetchKey symbol timeframe limit preferred) = none)
    (hfail : ∀ p ∈ candidateOrder env.registry preferred,
      ∃ r, attemptOne env symbol p = .error r) :
    ∃ atts,
      (fetchOHLCV env cache symbol timeframe limit preferred).result =
        .error (.dataUnavailable atts) ∧
      atts.map Prod.fst = candidateOrder env.registry preferred ∧
      (fetchOHLCV env cache symbol timeframe limit preferred).contacted =
        candidateOrder env.registry preferred := by
  rcases fetchLoop_allFail env symbol (candidateOrder env.registry preferred)
    hfail with ⟨atts, hl, hm⟩
  have hfo : fetchOHLCV env cache symbol timeframe limit preferred =
      { result := .error (.dataUnavailable atts), cacheOut := cache
        contacted := candidateOrder env.registry preferred } := by
    unfold fetchOHLCV
    rw [hmiss, hl]
  exact ⟨atts, by rw [hfo], hm, by rw [hfo]⟩

theorem claim_C1_witness :
    cacheGet [] (fetchKey "BTC/USDT" "1h" 100 none) = none ∧
    (∀ p ∈ candidateOrder envDown.registry none,
      ∃ r, attemptOne envDown "BTC/USDT" p = .error r) ∧
    ∃ atts,
      (fetchOHLCV envDown [] "BTC/USDT" "1h" 100 none).result =
        .error (.dataUnavailable atts) ∧
      atts.map Prod.fst = candidateOrder envDown.registry none ∧
      (fetchOHLCV envDown [] "BTC/USDT" "1h" 100 none).contacted =
        candidateOrder envDown.registry none :=
  ⟨rfl, fun _ _ => ⟨"timeout", rfl⟩,
    claim_C1 envDown [] "BTC/USDT" "1h" 100 none rfl
      (fun _ _ => ⟨"timeout", rfl⟩)⟩

/-- Claim C4: the active set preserves the candidates' input order; with
candidates [alpha, beta, gamma] where alpha fails and the others succeed
the active set is [beta, gamma] in that order; and a cache-missing fetch
with no preferred provider against that registry contacts beta first. -/
theorem claim_C4 (env : InitEnv) (cs : List String) :
    (activeExchanges env cs).Sublist cs ∧
    activeExchanges envAlphaFails ["alpha", "beta", "gamma"] =
      ["beta", "gamma"] ∧
    ∀ (fe : FetchEnv) (cache : Cache) (symbol timeframe : String)
      (limit : Nat),
      fe.registry = ["beta", "gamma"] →
      cacheGet cache (fetchKey symbol timeframe limit none) = none →
      (fetchOHLCV fe cache symbol timeframe limit none).contacted.head? =
        some "beta" := by
  refine ⟨?_, by decide, ?_⟩
  · rcases initLoop_active_append env cs [] with ⟨e, he, hs⟩
    have hae : activeExchanges env cs = e := by
      have he2 : (initLoop env [] cs).1 = [] ++ e := he
      simpa using he2
    rw [hae]
    exact hs
  · intro fe cache symbol timeframe limit hreg hmiss
    have hhead := fetchLoop_contacted_head fe symbol
      (candidateOrder fe.registry none)
    rcases hl : fetchLoop fe symbol (candidateOrder fe.registry none)
      with ⟨r, contacted⟩
    rw [hl] at hhead
    have hco : (candidateOrder fe.registry none).head? = some "beta" := by
      rw [show candidateOrder fe.registry none = fe.registry from rfl, hreg]
      rfl
    cases r with
    | ok md =>
      have hfo : fetchOHLCV fe cache symbol timeframe limit none =
          { result := .ok md
            cacheOut := cachePut cache (fetchKey symbol timeframe limit none) md
            contacted := contacted } := by
        unfold fetchOHLCV
        rw [hmiss, hl]
      rw [hfo]
      exact hhead.trans hco
    | error e2 =>
      have hfo : fetchOHLCV fe cache symbol timeframe limit none =
          { result := .error e2, cacheOut := cache, contacted := contacted } := by
        unfold fetchOHLCV
        rw [hmiss, hl]
      rw [hfo]
      exact hhead.trans hco

theorem claim_C4_witness :
    envBG.registry = ["beta", "gamma"] ∧
    cacheGet [] (fetchKey "BTC/USDT" "1h" 100 none) = none ∧
    (fetchOHLCV envBG [] "BTC/USDT" "1h" 100 none).contacted.head? =
      some "beta" :=
  ⟨rfl, rfl,
    (claim_C4 envAlphaFails ["alpha", "beta", "gamma"]).2.2 envBG []
      "BTC/USDT" "1h" 100 rfl rfl⟩

/-- Claim C5: assuming every cached payload satisfies the MarketData
invariant, a successful fetch returns data satisfying it (equal positive
sequence lengths, strictly increasing timestamps, values drawn only from
NaN-free responses), the invariant is preserved in the output cache, and a
fresh (non-cached) success is exactly the normalization of a well-formed
response of the provider it is tagged with — a response failing the check
is never returned. -/
theorem claim_C5 (env : FetchEnv) (cache : Cache) (symbol timeframe : String)
    (limit : Nat) (preferred : Option String)
    (hcache : ∀ e ∈ cache, mdInvariant e.2) :
    (∀ md,
      (fetchOHLCV env cache symbol timeframe limit preferred).result =
        .ok md → mdInvariant md) ∧
    (∀ e ∈ (fetchOHLCV env cache symbol timeframe limit preferred).cacheOut,
      mdInvariant e.2) ∧
    (cacheGet cache (fetchKey symbol timeframe limit preferred) = none →
      ∀ md,
        (fetchOHLCV env cache symbol timeframe limit preferred).result =
          .ok md →
        ∃ bars, env.respond md.exchange = .ok bars ∧
          barsWellFormed bars = true ∧
          md = normalizeBars symbol md.exchange bars) := by
  cases hk : cacheGet cache (fetchKey symbol timeframe limit preferred) with
  | some md0 =>
    have hfo : fetchOHLCV env cache symbol timeframe limit preferred =
        { result := .ok md0, cacheOut := cache, contacted := [] } := by
      unfold fetchOHLCV
      rw [hk]
    refine ⟨?_, ?_, ?_⟩
    · intro md h
      rw [hfo] at h
      have hmd : md0 = md := Except.ok.inj h
      rcases cacheGet_entry cache _ md0 hk with ⟨e, hm, hv⟩
      exact hmd ▸ hv ▸ hcache e hm
    · rw [hfo]
      exact hcache
    · intro hmiss
      exact absurd hmiss (by simp)
  | none =>
    rcases hl : fetchLoop env symbol (candidateOrder env.registry preferred)
      with ⟨r, contacted⟩
    cases r with
    | ok md1 =>
      have hok : (fetchLoop env symbol
          (candidateOrder env.registry preferred)).1 = .ok md1 := by
        rw [hl]
      rcases fetchLoop_ok env symbol _ md1 hok with ⟨p, bars, _hp, h1, h2, h3⟩
      have hfo : fetchOHLCV env cache symbol timeframe limit preferred =
          { result := .ok md1
            cacheOut :=
              cachePut cache (fetchKey symbol timeframe limit preferred) md1
            contacted := contacted } := by
        unfold fetchOHLCV
        rw [hk, hl]
      have hinv : mdInvariant md1 := h3 ▸ normalize_invariant symbol p bars h2
      refine ⟨?_, ?_, ?_⟩
      · intro md h
        rw [hfo] at h
        have hmd : md1 = md := Except.ok.inj h
        exact hmd ▸ hinv
      · rw [hfo]
        intro e he
        rcases List.mem_cons.mp he with he2 | he2
        · rw [he2]
          exact hinv
        · exact hcache e he2
      · intro _ md h
        rw [hfo] at h
        have hmd : md1 = md := Except.ok.inj h
        have hex : md.exchange = p := by
          rw [← hmd, h3]
          rfl
        refine ⟨bars, ?_, h2, ?_⟩
        · rw [hex]
          exact h1
        · rw [hex, ← hmd]
          exact h3
    | error e =>
      have hfo : fetchOHLCV env cache symbol timeframe limit preferred =
          { result := .error e, cacheOut := cache, contacted := contacted } := by
        unfold fetchOHLCV
        rw [hk, hl]
      refine ⟨?_, ?_, ?_⟩
      · intro md h
        rw [hfo] at h
        exact absurd h (by simp)
      · rw [hfo]
        exact hcache
      · intro _ md h
        rw [hfo] at h
        exact absurd h (by simp)

theorem claim_C5_witness :
    (∀ e ∈ ([] : Cache), mdInvariant e.2) ∧
    (∀ md, (fetchOHLCV envBetaOk [] "BTC/USDT" "1h" 100 none).result =
      .ok md → mdInvariant md) :=
  ⟨fun e he => absurd he (List.not_mem_nil e),
    (claim_C5 envBetaOk [] "BTC/USDT" "1h" 100 none
      (fun e he => absurd he (List.not_mem_nil e))).1⟩

/-- Claim C6: after a fetch returned a value, a second fetch with the same
key against the resulting cache is served from the cache — it returns the
same MarketData contents and contacts no provider; in general a cache hit
returns the cached payload unchanged, touches no provider, and leaves the
cache as it was. -/
theorem claim_C6 (env : FetchEnv) (cache : Cache) (symbol timeframe : String)
    (limit : Nat) (preferred : Option String) (md : MarketData)
    (h1 : (fetchOHLCV env cache symbol timeframe limit preferred).result =
      .ok md) :
    (fetchOHLCV env
        (fetchOHLCV env cache symbol timeframe limit preferred).cacheOut
        symbol timeframe limit preferred).result = .ok md ∧
    (fetchOHLCV env
        (fetchOHLCV env cache symbol timeframe limit preferred).cacheOut
        symbol timeframe limit preferred).contacted = [] ∧
    ∀ md2,
      cacheGet cache (fetchKey symbol timeframe limit preferred) = some md2 →
      fetchOHLCV env cache symbol timeframe limit preferred =
        { result := .ok md2, cacheOut := cache, contacted := [] } := by
  have hhit : ∀ (c : Cache) (md2 : MarketData),
      cacheGet c (fetchKey symbol timeframe limit preferred) = some md2 →
      fetchOHLCV env c symbol timeframe limit preferred =
        { result := .ok md2, cacheOut := c, contacted := [] } := by
    intro c md2 h
    unfold fetchOHLCV
    rw [h]
  have hc := fetch_ok_cached env cache symbol timeframe limit preferred md h1
  have h2 := hhit _ md hc
  exact ⟨by rw [h2], by rw [h2], fun md2 h => hhit cache md2 h⟩

theorem claim_C6_witness :
    (fetchOHLCV envBetaOk [] "BTC/USDT" "1h" 100 none).result = .ok mdW ∧
    (fetchOHLCV envBetaOk
        (fetchOHLCV envBetaOk [] "BTC/USDT" "1h" 100 none).cacheOut
        "BTC/USDT" "1h" 100 none).result = .ok mdW ∧
    (fetchOHLCV envBetaOk
        (fetchOHLCV envBetaOk [] "BTC/USDT" "1h" 100 none).cacheOut
        "BTC/USDT" "1h" 100 none).contacted = [] :=
  ⟨rfl,
    (claim_C6 envBetaOk [] "BTC/USDT" "1h" 100 none mdW rfl).1,
    (claim_C6 envBetaOk [] "BTC/USDT" "1h" 100 none mdW rfl).2.1⟩

/-- Claim C7: a given and ready preferred provider is tried alone first
followed by the full registry order as backup; a missing or not-ready
preferred provider leaves exactly the full registry order; and on a cache
miss the first provider a fetch contacts is the head of that candidate
order. -/
theorem claim_C7 (env : FetchEnv) (p : String) (preferred : Option String)
    (cache : Cache) (symbol timeframe : String) (limit : Nat) :
    (p ∈ env.registry →
      candidateOrder env.registry (some p) = p :: env.registry) ∧
    (p ∉ env.registry →
      candidateOrder env.registry (some p) = env.registry) ∧
    candidateOrder env.registry none = env.registry ∧
    (cacheGet cache (fetchKey symbol timeframe limit preferred) = none →
      (fetchOHLCV env cache symbol timeframe limit preferred).contacted.head? =
        (candidateOrder env.registry preferred).head?) := by
  refine ⟨?_, ?_, rfl, ?_⟩
  · intro h
    show (if p ∈ env.registry then p :: env.registry else env.registry) =
      p :: env.registry
    rw [if_pos h]
  · intro h
    show (if p ∈ env.registry then p :: env.registry else env.registry) =
      env.registry
    rw [if_neg h]
  · intro hmiss
    have hhead := fetchLoop_contacted_head env symbol
      (candidateOrder env.registry preferred)
    rcases hl : fetchLoop env symbol (candidateOrder env.registry preferred)
      with ⟨r, contacted⟩
    rw [hl] at hhead
    cases r with
    | ok md =>
      have hfo : fetchOHLCV env cache symbol timeframe limit preferred =
          { result := .ok md
            cacheOut :=
              cachePut cache (fetchKey symbol timeframe limit preferred) md
            contacted := contacted } := by
        unfold fetchOHLCV
        rw [hmiss, hl]
      rw [hfo]
      exact hhead
    | error e =>
      have hfo : fetchOHLCV env cache symbol timeframe limit preferred =
          { result := .error e, cacheOut := cache, contacted := contacted } := by
        unfold fetchOHLCV
        rw [hmiss, hl]
      rw [hfo]
      exact hhead

theorem claim_C7_witness :
    ("beta" ∈ envBG.registry ∧
      candidateOrder envBG.registry (some "beta") =
        "beta" :: envBG.registry) ∧
    ("delta" ∉ envBG.registry ∧
      candidateOrder envBG.registry (some "delta") = envBG.registry) ∧
    candidateOrder envBG.registry none = envBG.registry ∧
    (cacheGet [] (fetchKey "BTC/USDT" "1h" 100 (some "beta")) = none ∧
      (fetchOHLCV envBG [] "BTC/USDT" "1h" 100 (some "beta")).contacted.head? =
        (candidateOrder envBG.registry (some "beta")).head?) :=
  ⟨⟨by decide,
      (claim_C7 envBG "beta" (some "beta") [] "BTC/USDT" "1h" 100).1
        (by decide)⟩,
   ⟨by decide,
      (claim_C7 envBG "delta" (some "delta") [] "BTC/USDT" "1h" 100).2.1
        (by decide)⟩,
   (claim_C7 envBG "beta" (some "beta") [] "BTC/USDT" "1h" 100).2.2.1,
   ⟨rfl,
      (claim_C7 envBG "beta" (some "beta") [] "BTC/USDT" "1h" 100).2.2.2 rfl⟩⟩

/-! ### Claim about the configuration manager (C10) -/

/-- Claim C10: ConfigManager construction is total and installs the local
default TradingConfig, ModelConfig and RLConfig regardless of the Firebase
outcome; a failed or skipped Firebase setup leaves the client unset; with
the client unset, get_live_config answers None and update_config answers
False for every key; and a raising remote read or write likewise yields
None, respectively False. -/
theorem claim_C10 (env : FirebaseEnv) (client : FirestoreDB) (key : String)
    (data : ConfigDoc) :
    (mkConfigManager env client).trading = ({} : TradingConfig) ∧
    (mkConfigManager env client).model = ({} : ModelConfig) ∧
    (mkConfigManager env client).rl = ({} : RLConfig) ∧
    (¬(env.credPathSet = true ∧ env.initOk = true) →
      (mkConfigManager env client).db = none) ∧
    ((mkConfigManager env client).db = none →
      getLiveConfig (mkConfigManager env client) key = none ∧
      updateConfig (mkConfigManager env client) key data = false) ∧
    (∀ db msg, (mkConfigManager env client).db = some db →
      db.read key = .exc msg →
      getLiveConfig (mkConfigManager env client) key = none) ∧
    (∀ db msg, (mkConfigManager env client).db = some db →
      db.write key data = .exc msg →
      updateConfig (mkConfigManager env client) key data = false) := by
  refine ⟨rfl, rfl, rfl, ?_, ?_, ?_, ?_⟩
  · intro h
    have hneg : ¬(env.credPathSet && env.initOk) = true := by
      simp only [Bool.and_eq_true]
      exact h
    show initFirebaseDb env client = none
    unfold initFirebaseDb
    rw [if_neg hneg]
  · intro hdb
    constructor
    · unfold getLiveConfig
      rw [hdb]
    · unfold updateConfig
      rw [hdb]
  · intro db msg hdb hread
    unfold getLiveConfig
    rw [hdb]
    show (match db.read key with
      | .exc _ => none
      | .missing => none
      | .found d => some d) = none
    rw [hread]
  · intro db msg hdb hwrite
    unfold updateConfig
    rw [hdb]
    show (match db.write key data with
      | .exc _ => false
      | .done => true) = false
    rw [hwrite]

theorem claim_C10_witness :
    (mkConfigManager envOff dbW).db = none ∧
    (mkConfigManager envOff dbW).trading = ({} : TradingConfig) ∧
    getLiveConfig (mkConfigManager envOff dbW) "trading" = none ∧
    updateConfig (mkConfigManager envOff dbW) "trading" [] = false :=
  ⟨rfl,
    (claim_C10 envOff dbW "trading" []).1,
    ((claim_C10 envOff dbW "trading" []).2.2.2.2.1 rfl).1,
    ((claim_C10 envOff dbW "trading" []).2.2.2.2.1 rfl).2⟩

end ADLTS
